import Mathlib

/-!
Verification of the `v2-push` apply-stream aggregation core
(`processApplyStreams` / `processEvent` from `command/v2`, package `v2`).

The Go code consumes three channels produced by `Actor.Apply`:
an event stream (`<-chan pushaction.Event`), a warnings stream
(`<-chan pushaction.Warnings`) and an error stream (`<-chan error`).
We embed the loop shallowly: a *schedule* is the list of deliveries the
`select` statement hands to the loop body, one per iteration.  Each
delivery is either an item received from one of the three channels
(`ok = true` in Go) or the end-of-stream signal of one of them
(`ok = false`).  Go semantics notes reflected in the model:

* receiving from a closed channel never blocks and yields the zero
  value with `ok = false`, any number of times — so a schedule may
  contain several closure signals for the same stream;
* the loop body for the error stream is
  `if !ok { warningsClosed = true }; return err`; on a closed error
  channel `err` is the zero value `nil`, so the function returns `nil`;
* `DisplayWarnings(nil)` (the zero value received on the closed
  warnings channel) renders no line.

Rendered output is modelled as a list of tagged lines (`progress`
lines from `UI.DisplayText`/`DisplayTextWithFlavor`, `warning` lines
from `UI.DisplayWarnings`).  Go `error` values are modelled as
`String`; the Go `nil` error is `Option.none`.
-/

/-- Go `error` values (opaque, compared by identity of their message). -/
abbrev ErrVal := String

/-- `pushaction.Event`. In Go this is a string-typed enumeration with seven
constants used by `processEvent`; `other` stands for any further value of the
open string type (distinct from the seven named constants). -/
inductive Event where
  | applicationCreated
  | applicationUpdated
  | routeCreated
  | routeBound
  | uploadingApplication
  | uploadComplete
  | complete
  | other (s : String)
deriving DecidableEq

/-- One rendered line, tagged by the UI call that produced it. -/
inductive Line where
  | progress (s : String)
  | warning (s : String)
deriving DecidableEq

/-- The ambient display context read by `processEvent`:
`appConfig.DesiredApplication.Name`, `cmd.Config.TargetedOrganization().Name`,
`cmd.Config.TargetedSpace().Name`, and `cmd.Config.CurrentUser()` (which in Go
returns a user or an error). -/
structure Ctx where
  appName : String
  orgName : String
  spaceName : String
  currentUser : Except ErrVal String

/-- Result of one `processEvent` call: the returned pair `(bool, error)`
plus the lines displayed on the UI during the call. -/
structure EventResult where
  complete : Bool
  err : Option ErrVal
  lines : List Line
deriving DecidableEq

/-- `V2PushCommand.processEvent` (part_000 lines 179–226): switch on the
event, display a line for the five message-bearing variants (the two
app variants first fetch the current user and propagate its error),
return `(true, nil)` for `Complete`, and fall through to
`return false, nil` for anything else. -/
def processEvent (ctx : Ctx) (event : Event) : EventResult :=
  match event with
  | Event.applicationCreated =>
    match ctx.currentUser with
    | Except.error e => { complete := false, err := some e, lines := [] }
    | Except.ok user =>
      { complete := false, err := none,
        lines := [Line.progress ("Creating app " ++ ctx.appName ++ " in org " ++
          ctx.orgName ++ " / space " ++ ctx.spaceName ++ " as " ++ user ++ "...")] }
  | Event.applicationUpdated =>
    match ctx.currentUser with
    | Except.error e => { complete := false, err := some e, lines := [] }
    | Except.ok user =>
      { complete := false, err := none,
        lines := [Line.progress ("Updating app " ++ ctx.appName ++ " in org " ++
          ctx.orgName ++ " / space " ++ ctx.spaceName ++ " as " ++ user ++ "...")] }
  | Event.routeCreated =>
    { complete := false, err := none, lines := [Line.progress "Creating routes..."] }
  | Event.routeBound =>
    { complete := false, err := none, lines := [Line.progress "Binding routes..."] }
  | Event.uploadingApplication =>
    { complete := false, err := none, lines := [Line.progress "Uploading application..."] }
  | Event.uploadComplete =>
    { complete := false, err := none, lines := [Line.progress "Upload complete"] }
  | Event.complete =>
    { complete := true, err := none, lines := [] }
  | Event.other _ =>
    { complete := false, err := none, lines := [] }

/-- The loop state of `processApplyStreams`: the three local variables
`eventClosed`, `warningsClosed`, `complete`, plus (for observability) the
lines rendered on the UI so far. -/
structure LoopState where
  eventClosed : Bool
  warningsClosed : Bool
  complete : Bool
  out : List Line
deriving DecidableEq

/-- The loop's break condition `eventClosed && warningsClosed && complete`. -/
def allDoneState (s : LoopState) : Bool :=
  s.eventClosed && s.warningsClosed && s.complete

/-- State at entry of `processApplyStreams`: all flags false, nothing rendered. -/
def initState : LoopState :=
  { eventClosed := false, warningsClosed := false, complete := false, out := [] }

/-- One delivery handed to the loop body by the `select`: an item received on
one of the three channels (`ok = true`) or one end-of-stream signal
(`ok = false`). -/
inductive Delivery where
  | ev (e : Event)
  | evClosed
  | warn (ws : List String)
  | warnClosed
  | err (e : ErrVal)
  | errClosed
deriving DecidableEq

/-- Result of one iteration of the loop body: continue with a new state, or
return from `processApplyStreams` with a result (`none` = Go `nil`). -/
inductive StepRes where
  | cont (s : LoopState)
  | ret (r : Option ErrVal) (s : LoopState)
deriving DecidableEq

/-- One execution of the `select` body of `processApplyStreams`
(part_000 lines 144–168), given which case fired:

* event received: `complete, err = processEvent(...)`; on error return it,
  otherwise the displayed lines were appended;
* event stream closed: `eventClosed = true`;
* warnings received: `DisplayWarnings(warnings)`;
* warnings stream closed: `warningsClosed = true` and `DisplayWarnings(nil)`
  (which renders nothing);
* error received: `return err`;
* error stream closed: `warningsClosed = true` (dead assignment) and
  `return err` where `err` is the zero value `nil`. -/
def selectStep (ctx : Ctx) (s : LoopState) : Delivery → StepRes
  | Delivery.ev e =>
    let r := processEvent ctx e
    match r.err with
    | some msg => StepRes.ret (some msg) { s with complete := r.complete }
    | none => StepRes.cont { s with complete := r.complete, out := s.out ++ r.lines }
  | Delivery.evClosed => StepRes.cont { s with eventClosed := true }
  | Delivery.warn ws => StepRes.cont { s with out := s.out ++ ws.map Line.warning }
  | Delivery.warnClosed => StepRes.cont { s with warningsClosed := true }
  | Delivery.err e => StepRes.ret (some e) s
  | Delivery.errClosed => StepRes.ret none { s with warningsClosed := true }

/-- Outcome of running the loop on a finite schedule: the function returned
(with its result and the state at return), or the schedule is exhausted and
the loop is still blocked in the `select` (`running`). -/
inductive Outcome where
  | returned (res : Option ErrVal) (final : LoopState)
  | running (s : LoopState)
deriving DecidableEq

/-- The `for { select { ... } ; if eventClosed && warningsClosed && complete
{ break } }` loop of `processApplyStreams`: execute the fired case, return if
the case returned, otherwise break (returning `nil`) once all three flags
hold. -/
def applyLoop (ctx : Ctx) (s : LoopState) : List Delivery → Outcome
  | [] => Outcome.running s
  | d :: ds =>
    match selectStep ctx s d with
    | StepRes.ret r s' => Outcome.returned r s'
    | StepRes.cont s' =>
      if allDoneState s' then Outcome.returned none s' else applyLoop ctx s' ds

/-- `V2PushCommand.processApplyStreams` (part_000 lines 140–177) run on a
schedule of deliveries, from the fresh state. -/
def processApplyStreams (ctx : Ctx) (ds : List Delivery) : Outcome :=
  applyLoop ctx initState ds

/-- The prefix of the schedule the loop actually consumes (every delivery up
to and including the one on which the function returns). -/
def consumed (ctx : Ctx) (s : LoopState) : List Delivery → List Delivery
  | [] => []
  | d :: ds =>
    match selectStep ctx s d with
    | StepRes.ret _ _ => [d]
    | StepRes.cont s' =>
      if allDoneState s' then [d] else d :: consumed ctx s' ds

/-- The lines one delivery contributes to the rendered output. -/
def stepLines (ctx : Ctx) : Delivery → List Line
  | Delivery.ev e => (processEvent ctx e).lines
  | Delivery.warn ws => ws.map Line.warning
  | _ => []

/-- The rendered output visible in an outcome. -/
def outcomeOut : Outcome → List Line
  | Outcome.returned _ s => s.out
  | Outcome.running s => s.out

/-- Did the run end returning `nil` (success)? -/
def isSuccess : Outcome → Bool
  | Outcome.returned none _ => true
  | _ => false

/-- Did the run end returning a non-`nil` error? -/
def isErrorReturn : Outcome → Bool
  | Outcome.returned (some _) _ => true
  | _ => false

/-- Do all three break-condition flags hold in the outcome's state? -/
def allDoneOut : Outcome → Bool
  | Outcome.returned _ s => allDoneState s
  | Outcome.running s => allDoneState s

/-- `true` iff the schedule contains no delivery from the error stream
(neither an error value nor the error stream's closure). -/
def errStreamFree : List Delivery → Bool
  | [] => true
  | Delivery.err _ :: _ => false
  | Delivery.errClosed :: _ => false
  | _ :: ds => errStreamFree ds

/-- Is this delivery the terminal marker event? -/
def isTerminalDelivery : Delivery → Bool
  | Delivery.ev Event.complete => true
  | _ => false

/-- `true` iff the schedule never delivers the terminal marker `Complete`. -/
def terminalFree (ds : List Delivery) : Bool :=
  ds.all fun d => !(isTerminalDelivery d)

/-- The warning batch a delivery carries, if any. -/
def batchOf : Delivery → Option (List String)
  | Delivery.warn ws => some ws
  | _ => none

/-- The text of a warning line. -/
def warnText : Line → Option String
  | Line.warning w => some w
  | _ => none

/-- Projection of a schedule onto the events channel: `some e` for a received
item, `none` for a closure signal. -/
def evProj : List Delivery → List (Option Event)
  | [] => []
  | Delivery.ev e :: ds => some e :: evProj ds
  | Delivery.evClosed :: ds => none :: evProj ds
  | _ :: ds => evProj ds

/-- Projection of a schedule onto the warnings channel. -/
def warnProj : List Delivery → List (Option (List String))
  | [] => []
  | Delivery.warn ws :: ds => some ws :: warnProj ds
  | Delivery.warnClosed :: ds => none :: warnProj ds
  | _ :: ds => warnProj ds

/-- Projection of a schedule onto the error channel. -/
def errProj : List Delivery → List (Option ErrVal)
  | [] => []
  | Delivery.err e :: ds => some e :: errProj ds
  | Delivery.errClosed :: ds => none :: errProj ds
  | _ :: ds => errProj ds

/-- Go channel discipline for one channel holding `items` (in production
order) and closed or not: a trace of receives is legal iff it delivers a
prefix of `items` in order, and closure signals appear only after all items
were delivered and only if the channel is closed (a closed channel stays
ready and may signal closure any number of times). -/
def chanProjOK {α : Type} [DecidableEq α] : List α → Bool → List (Option α) → Bool
  | _, _, [] => true
  | items, closed, some a :: tr =>
    match items with
    | [] => false
    | b :: rest => decide (a = b) && chanProjOK rest closed tr
  | items, closed, none :: tr => items.isEmpty && closed && chanProjOK items closed tr

/-- Contents of the three streams for one run: the items each channel will
deliver, and whether the producer closes it. -/
structure Streams where
  events : List Event
  eventsClosed : Bool
  warns : List (List String)
  warnsClosed : Bool
  errs : List ErrVal
  errsClosed : Bool

/-- A schedule the Go `select` can produce for the given stream contents:
each channel's projection obeys the channel discipline. -/
def admissible (S : Streams) (ds : List Delivery) : Bool :=
  chanProjOK S.events S.eventsClosed (evProj ds) &&
  chanProjOK S.warns S.warnsClosed (warnProj ds) &&
  chanProjOK S.errs S.errsClosed (errProj ds)

/-- A display context in which the current user is available. -/
def ctx0ok : Ctx :=
  { appName := "some-app", orgName := "some-org",
    spaceName := "some-space", currentUser := Except.ok "alice" }

/-- A display context in which fetching the current user fails. -/
def ctx0bad : Ctx :=
  { appName := "some-app", orgName := "some-org",
    spaceName := "some-space", currentUser := Except.error "not logged in" }

/-! ### Helper lemmas about the loop -/

/-- Running the loop on a concatenated schedule runs the first part and, if it
is still going, continues with the second. -/
theorem applyLoop_append (ctx : Ctx) (ds₁ ds₂ : List Delivery) :
    ∀ s, applyLoop ctx s (ds₁ ++ ds₂) =
      match applyLoop ctx s ds₁ with
      | Outcome.running s' => applyLoop ctx s' ds₂
      | Outcome.returned r s' => Outcome.returned r s' := by
  induction ds₁ with
  | nil => intro s; simp [applyLoop]
  | cons d ds₁ ih =>
    intro s
    simp only [List.cons_append, applyLoop]
    cases selectStep ctx s d with
    | ret r s' => rfl
    | cont s' =>
      by_cases h : allDoneState s' = true
      · simp [h]
      · simp [h, ih]

/-- If the loop is still running, the break condition does not hold (starting
from a state where it does not hold). -/
theorem applyLoop_running_flags (ctx : Ctx) (ds : List Delivery) :
    ∀ s s', allDoneState s = false → applyLoop ctx s ds = Outcome.running s' →
      allDoneState s' = false := by
  induction ds with
  | nil =>
    intro s s' h heq
    simp only [applyLoop, Outcome.running.injEq] at heq
    exact heq ▸ h
  | cons d ds ih =>
    intro s s' h heq
    simp only [applyLoop] at heq
    split at heq
    next => exact absurd heq (by simp)
    next =>
      split at heq
      next => exact absurd heq (by simp)
      next hA => exact ih _ s' (by simpa using hA) heq

/-- When the current user is available, `processEvent` never returns an
error. -/
theorem processEvent_err_none (ctx : Ctx) (u : String)
    (hu : ctx.currentUser = Except.ok u) (e : Event) :
    (processEvent ctx e).err = none := by
  cases e <;> simp [processEvent, hu]

/-- Only the terminal marker makes `processEvent` report completion. -/
theorem processEvent_complete_iff (ctx : Ctx) (e : Event) :
    (processEvent ctx e).complete = true ↔ e = Event.complete := by
  cases e <;> simp [processEvent] <;> cases ctx.currentUser <;> simp

/-- When `processEvent` returns an error, it has displayed no line. -/
theorem processEvent_err_no_lines (ctx : Ctx) (e : Event)
    (h : (processEvent ctx e).err ≠ none) : (processEvent ctx e).lines = [] := by
  cases e <;> cases hc : ctx.currentUser <;> simp [processEvent, hc] at h ⊢

/-- `processEvent` only ever displays progress lines, never warning lines. -/
theorem processEvent_lines_progress (ctx : Ctx) (e : Event) :
    (processEvent ctx e).lines.filterMap warnText = [] := by
  cases e <;> cases hc : ctx.currentUser <;> simp [processEvent, warnText, hc]

/-- In a schedule free of error-stream deliveries and with the current user
available, every return of the loop is a success return taken at the break
condition. -/
theorem applyLoop_ret_all_done (ctx : Ctx) (u : String)
    (hu : ctx.currentUser = Except.ok u) (ds : List Delivery) :
    ∀ s r s', errStreamFree ds = true →
      applyLoop ctx s ds = Outcome.returned r s' →
      r = none ∧ allDoneState s' = true := by
  induction ds with
  | nil =>
    intro s r s' _ heq
    exact absurd heq (by simp [applyLoop])
  | cons d ds ih =>
    intro s r s' hfree heq
    simp only [applyLoop] at heq
    cases d with
    | err e => simp [errStreamFree] at hfree
    | errClosed => simp [errStreamFree] at hfree
    | ev e =>
      have hfree' : errStreamFree ds = true := by
        simpa [errStreamFree] using hfree
      simp only [selectStep, processEvent_err_none ctx u hu e] at heq
      split at heq
      next hA => cases heq; exact ⟨rfl, hA⟩
      next => exact ih _ r s' hfree' heq
    | evClosed =>
      have hfree' : errStreamFree ds = true := by
        simpa [errStreamFree] using hfree
      simp only [selectStep] at heq
      split at heq
      next hA => cases heq; exact ⟨rfl, hA⟩
      next => exact ih _ r s' hfree' heq
    | warn ws =>
      have hfree' : errStreamFree ds = true := by
        simpa [errStreamFree] using hfree
      simp only [selectStep] at heq
      split at heq
      next hA => cases heq; exact ⟨rfl, hA⟩
      next => exact ih _ r s' hfree' heq
    | warnClosed =>
      have hfree' : errStreamFree ds = true := by
        simpa [errStreamFree] using hfree
      simp only [selectStep] at heq
      split at heq
      next hA => cases heq; exact ⟨rfl, hA⟩
      next => exact ih _ r s' hfree' heq

/-- The rendered output of a run is the concatenation, over the consumed
prefix of the schedule, of the lines each delivery contributes. -/
theorem applyLoop_out (ctx : Ctx) (ds : List Delivery) :
    ∀ s, outcomeOut (applyLoop ctx s ds) =
      s.out ++ (consumed ctx s ds).flatMap (stepLines ctx) := by
  induction ds with
  | nil => intro s; simp [applyLoop, consumed, outcomeOut]
  | cons d ds ih =>
    intro s
    cases d with
    | ev e =>
      cases he : (processEvent ctx e).err with
      | some msg =>
        simp [applyLoop, consumed, selectStep, he, outcomeOut, stepLines,
          processEvent_err_no_lines ctx e (by simp [he])]
      | none =>
        by_cases hA : allDoneState { s with complete := (processEvent ctx e).complete, out := s.out ++ (processEvent ctx e).lines } = true
        · simp [applyLoop, consumed, selectStep, he, hA, outcomeOut, stepLines]
        · simp [applyLoop, consumed, selectStep, he, hA, stepLines, ih]
    | evClosed =>
      by_cases hA : allDoneState { s with eventClosed := true } = true
      · simp [applyLoop, consumed, selectStep, hA, outcomeOut, stepLines]
      · simp [applyLoop, consumed, selectStep, hA, stepLines, ih]
    | warn ws =>
      by_cases hA : allDoneState { s with out := s.out ++ ws.map Line.warning } = true
      · simp [applyLoop, consumed, selectStep, hA, outcomeOut, stepLines]
      · simp [applyLoop, consumed, selectStep, hA, stepLines, ih]
    | warnClosed =>
      by_cases hA : allDoneState { s with warningsClosed := true } = true
      · simp [applyLoop, consumed, selectStep, hA, outcomeOut, stepLines]
      · simp [applyLoop, consumed, selectStep, hA, stepLines, ih]
    | err e => simp [applyLoop, consumed, selectStep, outcomeOut, stepLines]
    | errClosed => simp [applyLoop, consumed, selectStep, outcomeOut, stepLines]

/-- The consumed deliveries form a prefix of the schedule. -/
theorem consumed_take (ctx : Ctx) (ds : List Delivery) :
    ∀ s, consumed ctx s ds = ds.take (consumed ctx s ds).length := by
  induction ds with
  | nil => intro s; simp [consumed]
  | cons d ds ih =>
    intro s
    cases hstep : selectStep ctx s d with
    | ret r t => simp [consumed, hstep]
    | cont t =>
      by_cases hA : allDoneState t = true
      · simp [consumed, hstep, hA]
      · simp only [consumed, hstep, if_neg hA, List.length_cons, List.take_succ_cons]
        exact congrArg _ (ih t)

/-- The warning lines one delivery contributes are exactly its warning batch
(events contribute progress lines only). -/
theorem stepLines_warnText (ctx : Ctx) (d : Delivery) :
    (stepLines ctx d).filterMap warnText = (batchOf d).getD [] := by
  cases d with
  | ev e => simp [stepLines, batchOf, processEvent_lines_progress]
  | warn ws =>
    simp only [stepLines, batchOf, Option.getD_some]
    induction ws with
    | nil => simp
    | cons w ws ihw => simp [warnText, ihw]
  | evClosed => simp [stepLines, batchOf]
  | warnClosed => simp [stepLines, batchOf]
  | err e => simp [stepLines, batchOf]
  | errClosed => simp [stepLines, batchOf]

/-- Over any list of deliveries, the warning lines rendered are the
concatenation of the warning batches, in order. -/
theorem flatMap_stepLines_warnText (ctx : Ctx) (l : List Delivery) :
    (l.flatMap (stepLines ctx)).filterMap warnText = (l.filterMap batchOf).flatten := by
  induction l with
  | nil => simp
  | cons d l ih =>
    cases hb : batchOf d with
    | none =>
      simp [List.flatMap_cons, List.filterMap_append, stepLines_warnText, hb, ih]
    | some ws =>
      simp [List.flatMap_cons, List.filterMap_append, stepLines_warnText, hb, ih]

/-- With no terminal marker delivered, nothing delivered on the error stream,
and the current user available, the loop never returns, starting from any
state whose `complete` flag is still false. -/
theorem applyLoop_no_terminal_running (ctx : Ctx) (u : String)
    (hu : ctx.currentUser = Except.ok u) (ds : List Delivery) :
    ∀ s, s.complete = false → terminalFree ds = true → errStreamFree ds = true →
      ∃ s', applyLoop ctx s ds = Outcome.running s' ∧ s'.complete = false := by
  induction ds with
  | nil => intro s h _ _; exact ⟨s, by simp [applyLoop], h⟩
  | cons d ds ih =>
    intro s h hterm herr
    have hterm2 := hterm
    simp only [terminalFree, List.all_cons, Bool.and_eq_true] at hterm2
    have hterm' : terminalFree ds = true := by
      simpa [terminalFree] using hterm2.2
    cases d with
    | err e => simp [errStreamFree] at herr
    | errClosed => simp [errStreamFree] at herr
    | ev e =>
      have herr' : errStreamFree ds = true := by simpa [errStreamFree] using herr
      have hterm1 : isTerminalDelivery (Delivery.ev e) = false := by
        simpa using hterm2.1
      have hpe : (processEvent ctx e).err = none := processEvent_err_none ctx u hu e
      have hcmpl : (processEvent ctx e).complete = false := by
        cases hc : (processEvent ctx e).complete
        · rfl
        · have heq : e = Event.complete := (processEvent_complete_iff ctx e).1 hc
          subst heq
          simp [isTerminalDelivery] at hterm1
      obtain ⟨s', hs', hc'⟩ :=
        ih { s with complete := (processEvent ctx e).complete, out := s.out ++ (processEvent ctx e).lines }
          (by simp [hcmpl]) hterm' herr'
      rw [hcmpl] at hs'
      refine ⟨s', ?_, hc'⟩
      simp [applyLoop, selectStep, hpe, allDoneState, hcmpl, hs']
    | evClosed =>
      have herr' : errStreamFree ds = true := by simpa [errStreamFree] using herr
      obtain ⟨s', hs', hc'⟩ := ih { s with eventClosed := true } (by simp [h]) hterm' herr'
      rw [h] at hs'
      refine ⟨s', ?_, hc'⟩
      simp [applyLoop, selectStep, allDoneState, h, hs']
    | warn ws =>
      have herr' : errStreamFree ds = true := by simpa [errStreamFree] using herr
      obtain ⟨s', hs', hc'⟩ := ih { s with out := s.out ++ ws.map Line.warning } (by simp [h]) hterm' herr'
      rw [h] at hs'
      refine ⟨s', ?_, hc'⟩
      simp [applyLoop, selectStep, allDoneState, h, hs']
    | warnClosed =>
      have herr' : errStreamFree ds = true := by simpa [errStreamFree] using herr
      obtain ⟨s', hs', hc'⟩ := ih { s with warningsClosed := true } (by simp [h]) hterm' herr'
      rw [h] at hs'
      refine ⟨s', ?_, hc'⟩
      simp [applyLoop, selectStep, allDoneState, h, hs']

/-! ### The claims -/

/-- C1 (amended): in every schedule that delivers nothing from the error
stream — no error value, but also no error-stream closure — and in which the
current user is available, `processApplyStreams` never returns a non-nil
error, and it returns success exactly when the three conditions
`eventClosed && warningsClosed && complete` hold in the loop state.  (The
original claim fails because the closure of the error stream is a further,
unconditional `nil` return: see the counterexample.) -/
theorem success_iff_allDone (ctx : Ctx) (u : String) (ds : List Delivery)
    (hu : ctx.currentUser = Except.ok u) (hf : errStreamFree ds = true) :
    (isSuccess (processApplyStreams ctx ds) = true ↔
      allDoneOut (processApplyStreams ctx ds) = true) ∧
    isErrorReturn (processApplyStreams ctx ds) = false := by
  unfold processApplyStreams
  cases h : applyLoop ctx initState ds with
  | returned r s' =>
    obtain ⟨rfl, hA⟩ := applyLoop_ret_all_done ctx u hu ds initState r s' hf h
    simp [isSuccess, isErrorReturn, allDoneOut, hA]
  | running s' =>
    have hA := applyLoop_running_flags ctx ds initState s' (by decide) h
    simp [isSuccess, isErrorReturn, allDoneOut, hA]

/-- C1 witness: a run in which the marker is observed and both non-error
streams close ends in success with all three conditions holding. -/
theorem success_iff_allDone_witness :
    errStreamFree [Delivery.ev Event.complete, Delivery.evClosed, Delivery.warnClosed] = true ∧
    ((isSuccess (processApplyStreams ctx0ok
        [Delivery.ev Event.complete, Delivery.evClosed, Delivery.warnClosed]) = true ↔
      allDoneOut (processApplyStreams ctx0ok
        [Delivery.ev Event.complete, Delivery.evClosed, Delivery.warnClosed]) = true) ∧
     isErrorReturn (processApplyStreams ctx0ok
        [Delivery.ev Event.complete, Delivery.evClosed, Delivery.warnClosed]) = false) :=
  ⟨by decide, success_iff_allDone ctx0ok "alice"
    [Delivery.ev Event.complete, Delivery.evClosed, Delivery.warnClosed] rfl (by decide)⟩

/-- C1 counterexample: events stream open (terminal marker still pending),
warnings stream open, error stream closed with no items.  Selecting the closed
error stream is an admissible first step, and the code returns `nil` (success)
although the events stream is not closed, the warnings stream is not closed
and the terminal marker was never observed — refuting that the three
conditions are the sole way an error-free run ends. -/
theorem success_despite_open_streams :
    admissible ⟨[Event.complete], false, [], false, [], true⟩ [Delivery.errClosed] = true ∧
    processApplyStreams ctx0ok [Delivery.errClosed] =
      Outcome.returned none ⟨false, true, false, []⟩ := by decide

/-- C2: whenever the loop is still running and an error value arrives on the
error stream, `processApplyStreams` returns exactly that error value, with the
rendered output unchanged from the moment of delivery: no progress line and no
warning batch is rendered after the error, and the rest of the schedule is
abandoned. -/
theorem error_abort_exact (ctx : Ctx) (s : LoopState) (ds₁ ds₂ : List Delivery) (e : ErrVal)
    (h : processApplyStreams ctx ds₁ = Outcome.running s) :
    processApplyStreams ctx (ds₁ ++ Delivery.err e :: ds₂) = Outcome.returned (some e) s := by
  unfold processApplyStreams at h ⊢
  rw [applyLoop_append, h]
  simp [applyLoop, selectStep]

/-- C2 witness: an error delivered right after one rendered event is returned
as is, and the pending warning batch after it is never rendered. -/
theorem error_abort_exact_witness :
    processApplyStreams ctx0ok [Delivery.ev Event.routeCreated] =
      Outcome.running ⟨false, false, false, [Line.progress "Creating routes..."]⟩ ∧
    processApplyStreams ctx0ok
        ([Delivery.ev Event.routeCreated] ++ Delivery.err "boom" :: [Delivery.warn ["w"]]) =
      Outcome.returned (some "boom") ⟨false, false, false, [Line.progress "Creating routes..."]⟩ :=
  ⟨by decide, error_abort_exact ctx0ok ⟨false, false, false, [Line.progress "Creating routes..."]⟩
    [Delivery.ev Event.routeCreated] [Delivery.warn ["w"]] "boom" (by decide)⟩

/-- C7: if the events stream never delivers the terminal marker, nothing is
ever delivered on the error stream, and the current user is available (so
rendering cannot abort), then `processApplyStreams` never returns: after any
finite schedule — including ones closing the events and warnings streams — the
loop is still waiting.  The hang is reachable by design. -/
theorem no_terminal_no_return (ctx : Ctx) (u : String) (ds : List Delivery)
    (hu : ctx.currentUser = Except.ok u)
    (hterm : terminalFree ds = true) (herr : errStreamFree ds = true) :
    ∃ s, processApplyStreams ctx ds = Outcome.running s := by
  obtain ⟨s, hs, _⟩ := applyLoop_no_terminal_running ctx u hu ds initState rfl hterm herr
  exact ⟨s, hs⟩

/-- C7 witness: both non-error streams close without a terminal marker and the
loop is still running. -/
theorem no_terminal_no_return_witness :
    terminalFree [Delivery.ev Event.routeCreated, Delivery.evClosed, Delivery.warnClosed] = true ∧
    errStreamFree [Delivery.ev Event.routeCreated, Delivery.evClosed, Delivery.warnClosed] = true ∧
    ∃ s, processApplyStreams ctx0ok
      [Delivery.ev Event.routeCreated, Delivery.evClosed, Delivery.warnClosed] =
        Outcome.running s :=
  ⟨by decide, by decide, no_terminal_no_return ctx0ok "alice"
    [Delivery.ev Event.routeCreated, Delivery.evClosed, Delivery.warnClosed]
    rfl (by decide) (by decide)⟩

/-- C3 counterexample: with the current user unavailable, the
`ApplicationCreated` event makes `processEvent` return the lookup error and
`processApplyStreams` aborts the run with that rendering-caused error —
refuting that rendering never aborts the run. -/
theorem render_abort_on_missing_user :
    processApplyStreams ctx0bad [Delivery.ev Event.applicationCreated] =
      Outcome.returned (some "not logged in") initState ∧
    (processEvent ctx0bad Event.applicationCreated).err = some "not logged in" := by decide

/-- C3 (amended): `processEvent` produces an error exactly when the event is
`ApplicationCreated` or `ApplicationUpdated` and fetching the current user
fails; in that case it displays no line and the run aborts with that error.
For every other event — and for every event whenever the current user is
available — rendering produces a line or no line and never errors. -/
theorem render_abort_iff_user_missing (ctx : Ctx) (e : Event) :
    ((processEvent ctx e).err ≠ none ↔
      ((e = Event.applicationCreated ∨ e = Event.applicationUpdated) ∧
        ∃ msg, ctx.currentUser = Except.error msg)) ∧
    ((processEvent ctx e).err ≠ none → (processEvent ctx e).lines = []) := by
  constructor
  · cases e <;> cases hc : ctx.currentUser <;> simp [processEvent, hc]
  · exact processEvent_err_no_lines ctx e

/-- C3 witness: the amended characterisation instantiated at the failing
context and the `ApplicationCreated` event. -/
theorem render_abort_iff_user_missing_witness :
    ((processEvent ctx0bad Event.applicationCreated).err ≠ none ↔
      ((Event.applicationCreated = Event.applicationCreated ∨
        Event.applicationCreated = Event.applicationUpdated) ∧
        ∃ msg, ctx0bad.currentUser = Except.error msg)) ∧
    ((processEvent ctx0bad Event.applicationCreated).err ≠ none →
      (processEvent ctx0bad Event.applicationCreated).lines = []) :=
  render_abort_iff_user_missing ctx0bad Event.applicationCreated

/-- C4 counterexample: events stream closed from the start, warnings and error
streams open.  The schedule in which the select fires the closed events
channel twice is admissible (a closed Go channel stays ready forever), and the
loop consumes both deliveries: after the first read records the stream as
closed, a later iteration reads the events stream again — refuting that a
closed stream is never read again. -/
theorem closed_stream_reread :
    admissible ⟨[], true, [], false, [], false⟩ [Delivery.evClosed, Delivery.evClosed] = true ∧
    processApplyStreams ctx0ok [Delivery.evClosed] = Outcome.running ⟨true, false, false, []⟩ ∧
    consumed ctx0ok initState [Delivery.evClosed, Delivery.evClosed] =
      [Delivery.evClosed, Delivery.evClosed] := by decide

/-- C4 (amended): a stream recorded as closed may be selected and read again —
the loop never removes a closed channel from its `select` — but every such
re-read only re-delivers the end-of-stream signal and is a no-op: the loop
state, and hence the rendered output, is unchanged. -/
theorem closed_reread_noop (ctx : Ctx) (ds₁ : List Delivery) (s : LoopState)
    (h : processApplyStreams ctx ds₁ = Outcome.running s) :
    (s.eventClosed = true →
      processApplyStreams ctx (ds₁ ++ [Delivery.evClosed]) = Outcome.running s) ∧
    (s.warningsClosed = true →
      processApplyStreams ctx (ds₁ ++ [Delivery.warnClosed]) = Outcome.running s) := by
  have hA : allDoneState s = false :=
    applyLoop_running_flags ctx ds₁ initState s (by decide) h
  unfold processApplyStreams at h ⊢
  constructor
  · intro he
    rw [applyLoop_append, h]
    cases s with
    | mk ec wc cp out =>
      simp only at he
      subst he
      simp [allDoneState] at hA
      simp [applyLoop, selectStep, allDoneState]
      exact hA
  · intro hw
    rw [applyLoop_append, h]
    cases s with
    | mk ec wc cp out =>
      simp only at hw
      subst hw
      simp [allDoneState] at hA
      simp [applyLoop, selectStep, allDoneState]
      exact hA

/-- C4 witness: re-delivering the events-stream closure after it was recorded
leaves the run unchanged. -/
theorem closed_reread_noop_witness :
    processApplyStreams ctx0ok [Delivery.evClosed] = Outcome.running ⟨true, false, false, []⟩ ∧
    ((true = true →
      processApplyStreams ctx0ok ([Delivery.evClosed] ++ [Delivery.evClosed]) =
        Outcome.running ⟨true, false, false, []⟩) ∧
     (false = true →
      processApplyStreams ctx0ok ([Delivery.evClosed] ++ [Delivery.warnClosed]) =
        Outcome.running ⟨true, false, false, []⟩)) :=
  ⟨by decide, closed_reread_noop ctx0ok [Delivery.evClosed] ⟨true, false, false, []⟩ (by decide)⟩

/-- C5 counterexample: after the terminal marker is observed, the error stream
(closed with no items) is selected; the code returns `nil` immediately —
success is declared although neither the events stream nor the warnings
stream ever closed, and the still-pending warning batch is abandoned.  This
refutes that success is declared only once both streams subsequently close. -/
theorem success_before_close_after_marker :
    admissible ⟨[Event.complete], false, [["disk quota near limit"]], false, [], true⟩
      [Delivery.ev Event.complete, Delivery.errClosed] = true ∧
    processApplyStreams ctx0ok [Delivery.ev Event.complete, Delivery.errClosed] =
      Outcome.returned none ⟨false, true, true, []⟩ := by decide

/-- C5 (amended): observing the terminal marker does not stop the run — the
loop keeps reading, and a warning batch delivered after the marker is still
rendered — and, provided the error stream stays silent (no error value and no
error-stream closure), success is declared only after the events and warnings
streams subsequently close. -/
theorem terminal_marker_continues (ctx : Ctx) (ds₁ : List Delivery) (s : LoopState)
    (ws : List String) (h : processApplyStreams ctx ds₁ = Outcome.running s)
    (he : s.eventClosed = false) (hw : s.warningsClosed = false) :
    processApplyStreams ctx (ds₁ ++ [Delivery.ev Event.complete, Delivery.warn ws]) =
      Outcome.running { s with complete := true, out := s.out ++ ws.map Line.warning } ∧
    processApplyStreams ctx
        (ds₁ ++ [Delivery.ev Event.complete, Delivery.warn ws,
          Delivery.evClosed, Delivery.warnClosed]) =
      Outcome.returned none ⟨true, true, true, s.out ++ ws.map Line.warning⟩ := by
  unfold processApplyStreams at h ⊢
  cases s with
  | mk ec wc cp out =>
    simp only at he hw
    subst he
    subst hw
    constructor
    · rw [applyLoop_append, h]
      simp [applyLoop, selectStep, processEvent, allDoneState]
    · rw [applyLoop_append, h]
      simp [applyLoop, selectStep, processEvent, allDoneState]

/-- C5 witness: from the fresh state, the marker then a warning batch leaves
the run going with the batch rendered; closing both streams afterwards yields
success. -/
theorem terminal_marker_continues_witness :
    processApplyStreams ctx0ok [] = Outcome.running initState ∧
    (processApplyStreams ctx0ok
        ([] ++ [Delivery.ev Event.complete, Delivery.warn ["disk quota near limit"]]) =
      Outcome.running { initState with complete := true, out := initState.out ++ (["disk quota near limit"] : List String).map Line.warning } ∧
     processApplyStreams ctx0ok
        ([] ++ [Delivery.ev Event.complete, Delivery.warn ["disk quota near limit"],
          Delivery.evClosed, Delivery.warnClosed]) =
      Outcome.returned none ⟨true, true, true,
        initState.out ++ (["disk quota near limit"] : List String).map Line.warning⟩) :=
  ⟨rfl, terminal_marker_continues ctx0ok [] initState ["disk quota near limit"] rfl rfl rfl⟩

/-- C6 (amended): for scenario A's streams — the six events in production
order then closure, an empty warnings stream that closes, an error stream
closed with no items — the canonical interleaving (events, events closure,
warnings closure; the closed error stream never selected) is admissible and
returns success with exactly 5 rendered lines, `Finished` rendering none.
Because the closed error stream may win the select race, other admissible
interleavings of the same input return success with fewer lines (see the
counterexample), so 5 lines is not guaranteed for every interleaving. -/
theorem scenarioA_canonical :
    admissible
      ⟨[Event.applicationCreated, Event.routeCreated, Event.routeBound,
        Event.uploadingApplication, Event.uploadComplete, Event.complete],
        true, [], true, [], true⟩
      [Delivery.ev Event.applicationCreated, Delivery.ev Event.routeCreated,
        Delivery.ev Event.routeBound, Delivery.ev Event.uploadingApplication,
        Delivery.ev Event.uploadComplete, Delivery.ev Event.complete,
        Delivery.evClosed, Delivery.warnClosed] = true ∧
    processApplyStreams ctx0ok
      [Delivery.ev Event.applicationCreated, Delivery.ev Event.routeCreated,
        Delivery.ev Event.routeBound, Delivery.ev Event.uploadingApplication,
        Delivery.ev Event.uploadComplete, Delivery.ev Event.complete,
        Delivery.evClosed, Delivery.warnClosed] =
      Outcome.returned none ⟨true, true, true,
        [Line.progress "Creating app some-app in org some-org / space some-space as alice...",
          Line.progress "Creating routes...",
          Line.progress "Binding routes...",
          Line.progress "Uploading application...",
          Line.progress "Upload complete"]⟩ ∧
    ([Line.progress "Creating app some-app in org some-org / space some-space as alice...",
      Line.progress "Creating routes...",
      Line.progress "Binding routes...",
      Line.progress "Uploading application...",
      Line.progress "Upload complete"] : List Line).length = 5 := by
  refine ⟨by decide, by decide, rfl⟩

/-- C6 counterexample: with exactly scenario A's streams, selecting the closed
error stream first is admissible; the run then returns success having rendered
0 lines, not 5 — refuting the claimed output for this input. -/
theorem scenarioA_zero_lines :
    admissible
      ⟨[Event.applicationCreated, Event.routeCreated, Event.routeBound,
        Event.uploadingApplication, Event.uploadComplete, Event.complete],
        true, [], true, [], true⟩
      [Delivery.errClosed] = true ∧
    processApplyStreams ctx0ok [Delivery.errClosed] =
      Outcome.returned none ⟨false, true, false, []⟩ ∧
    outcomeOut (processApplyStreams ctx0ok [Delivery.errClosed]) = [] := by decide

/-- C8: the rendered output of any run decomposes, delivery by delivery over
the consumed prefix of the schedule, into the lines each delivery contributes;
a warning batch contributes exactly its strings, in input order, as one
contiguous block; and the warning lines of the whole output are the
concatenation of the received batches in order of receipt, regardless of how
progress events interleave with them. -/
theorem warn_batches_contiguous_ordered (ctx : Ctx) (ds : List Delivery) :
    consumed ctx initState ds = ds.take (consumed ctx initState ds).length ∧
    outcomeOut (processApplyStreams ctx ds) =
      (consumed ctx initState ds).flatMap (stepLines ctx) ∧
    (∀ ws, stepLines ctx (Delivery.warn ws) = ws.map Line.warning) ∧
    (outcomeOut (processApplyStreams ctx ds)).filterMap warnText =
      ((consumed ctx initState ds).filterMap batchOf).flatten := by
  have hout : outcomeOut (processApplyStreams ctx ds) =
      (consumed ctx initState ds).flatMap (stepLines ctx) := by
    have h := applyLoop_out ctx ds initState
    simpa [processApplyStreams, initState] using h
  refine ⟨consumed_take ctx ds initState, hout, fun ws => rfl, ?_⟩
  rw [hout]
  exact flatMap_stepLines_warnText ctx _

/-- C9 counterexample: the error value is the error stream's first and only
item, pending from the start, while one progress event is also ready.  The
schedule that acts on the progress event first is admissible — the Go `select`
draws uniformly among ready cases and the code never re-checks the error
source first — so a progress line is rendered before the error terminates the
run, refuting unconditional error precedence. -/
theorem error_not_prioritized :
    admissible ⟨[Event.routeCreated], false, [], false, ["boom"], false⟩
      [Delivery.ev Event.routeCreated, Delivery.err "boom"] = true ∧
    processApplyStreams ctx0ok [Delivery.ev Event.routeCreated, Delivery.err "boom"] =
      Outcome.returned (some "boom")
        ⟨false, false, false, [Line.progress "Creating routes..."]⟩ := by decide

/-- C9 (amended): the loop gives the error stream no priority: with an error
and a progress event simultaneously ready, both the schedule that returns the
error at once (rendering nothing) and the schedule that renders the event
first and only then returns the error are admissible behaviours of the code;
the error terminates the run exactly when its case is selected. -/
theorem no_error_priority :
    admissible ⟨[Event.routeCreated], false, [], false, ["boom"], false⟩
      [Delivery.err "boom"] = true ∧
    processApplyStreams ctx0ok [Delivery.err "boom"] =
      Outcome.returned (some "boom") initState ∧
    admissible ⟨[Event.routeCreated], false, [], false, ["boom"], false⟩
      [Delivery.ev Event.routeCreated, Delivery.err "boom"] = true ∧
    processApplyStreams ctx0ok [Delivery.ev Event.routeCreated, Delivery.err "boom"] =
      Outcome.returned (some "boom")
        ⟨false, false, false, [Line.progress "Creating routes..."]⟩ ∧
    outcomeOut (processApplyStreams ctx0ok [Delivery.err "boom"]) = [] := by decide

/-- C10: every event value other than the seven handled variants makes
`processEvent` return `(false, nil)` with no line displayed; delivered to a
running loop it neither renders, nor marks the run complete, nor aborts — the
loop carries on (with the `complete` flag overwritten to false). -/
theorem unhandled_event_noop (ctx : Ctx) (str : String) (ds₁ : List Delivery) (s : LoopState)
    (h : processApplyStreams ctx ds₁ = Outcome.running s) :
    processEvent ctx (Event.other str) = ⟨false, none, []⟩ ∧
    processApplyStreams ctx (ds₁ ++ [Delivery.ev (Event.other str)]) =
      Outcome.running { s with complete := false } := by
  refine ⟨rfl, ?_⟩
  unfold processApplyStreams at h ⊢
  rw [applyLoop_append, h]
  cases s with
  | mk ec wc cp out => simp [applyLoop, selectStep, processEvent, allDoneState]

/-- C10 witness: an unknown event delivered to the fresh loop is a no-op. -/
theorem unhandled_event_noop_witness :
    processApplyStreams ctx0ok [] = Outcome.running initState ∧
    (processEvent ctx0ok (Event.other "SomeFutureEvent") = ⟨false, none, []⟩ ∧
     processApplyStreams ctx0ok ([] ++ [Delivery.ev (Event.other "SomeFutureEvent")]) =
       Outcome.running { initState with complete := false }) :=
  ⟨rfl, unhandled_event_noop ctx0ok "SomeFutureEvent" [] initState rfl⟩
